import Mathlib

/-!
# Verification of the bookshelf `Model` layer (src/lib/model.js)

A shallow embedding of `BookshelfModel` from `src/lib/model.js` (bookshelf
0.8.1).  The promise chains of `fetch`, `save`, `destroy` and `load` are
embedded as pure functions that thread the in-memory model state explicitly
and record the externally visible steps (hook triggers, database writes,
eager-load entry) in an event trace.  External collaborators that are not
part of this repository's `src/` tree (the `Sync` query layer, the event
system's `triggerThen`, the base attribute container) are represented by
explicit "world" parameters: the rows a query returns, the row counts a
write reports, and whether a registered hook raises an error.

JavaScript conventions used throughout the embedding:
* an `undefined` option is `Option.none`; attribute maps are association
  lists where assignment replaces the first binding of a key;
* the `null`-rejection trick in `fetch` (reject with `null`, catch and
  resolve) is embedded directly as the resolved absent result;
* promise rejection with error `e` is `err = some e` in the outcome record.
-/

namespace Bookshelf

/-- A database / attribute value.  `null` stands for both JavaScript
`null` and `undefined` where the distinction does not matter. -/
inductive Val where
  | num : Int → Val
  | str : String → Val
  | bool : Bool → Val
  | null
deriving DecidableEq, Repr

/-- A raw database row, as handed back by the query layer. -/
abbrev Row := List (String × Val)

/-- The distinguished error kinds of `src/lib/errors.js` referenced by
`model.js` (`NotFoundError`, `NoRowsUpdatedError`, `NoRowsDeletedError`),
plus a constructor for arbitrary errors raised by user hooks and the
configuration errors thrown by the relation helpers. -/
inductive Err where
  | notFound : String → Err
  | noRowsUpdated : String → Err
  | noRowsDeleted : String → Err
  | configError : String → Err
  | hookError : String → Err
deriving DecidableEq, Repr

/-- `obj[k] = v` on an association list: replaces the first binding of `k`,
appends the key if absent (JavaScript object assignment). -/
def assocSet (l : List (String × α)) (k : String) (v : α) : List (String × α) :=
  match l with
  | [] => [(k, v)]
  | (k', v') :: rest => if k' = k then (k, v) :: rest else (k', v') :: assocSet rest k v

/-- Lookup of a key in an association list (`obj[k]`). -/
def assocGet (l : List (String × α)) (k : String) : Option α :=
  match l with
  | [] => none
  | (k', v') :: rest => if k' = k then some v' else assocGet rest k

/-- Number of bindings an association list holds for a key. -/
def keyCount (l : List (String × α)) (k : String) : Nat :=
  (l.filter (fun p => p.1 = k)).length

/-- `_.extend(dst, src)` / repeated `set`: assign every binding of `src`
onto `dst`, left to right. -/
def setAll (dst src : List (String × α)) : List (String × α) :=
  src.foldl (fun acc kv => assocSet acc kv.1 kv.2) dst

/-- Truthiness of an optional boolean option (`options.require`,
`options.patch`, ...): absent (`undefined`) is falsy. -/
def truthy : Option Bool → Bool
  | some b => b
  | none => false

/-- The two write kinds `saveMethod` can select. -/
inductive SaveMethod where
  | insert
  | update
deriving DecidableEq, Repr

/-- The option hash threaded through `fetch` / `save` / `destroy` / `load`.
Fields model the options `model.js` reads; an absent field is `none`. -/
structure Options where
  require : Option Bool := none
  columns : Option (List String) := none
  withRelated : Option (List String) := none
  shallow : Option Bool := none
  transacting : Option Nat := none
  method : Option SaveMethod := none
  patch : Option Bool := none
  defaults : Option Bool := none
deriving DecidableEq, Repr

/-- The in-memory model instance: the attribute hash, the configuration
fields `model.js` reads (`idAttribute`, `hasTimestamps`, `defaults`), the
`relations` map filled by eager loading, and the `relatedData` summary used
by `_handleResponse` (`none` = no `relatedData`; `some b` = present with
`isJoined()` returning `b`).  `pivotParsed` records that
`relatedData.parsePivot` ran on this instance. -/
structure Model where
  attributes : List (String × Val) := []
  idAttribute : String := "id"
  hasTimestamps : Bool := false
  defaults : Option (List (String × Val)) := none
  relations : List (String × List Row) := []
  relatedDataJoined : Option Bool := none
  pivotParsed : Bool := false
deriving DecidableEq, Repr

/-- `this.id`, kept in sync with `attributes[idAttribute]` by the base
attribute container; a `null` attribute counts as no id (`id == null`). -/
def Model.id (m : Model) : Option Val :=
  match assocGet m.attributes m.idAttribute with
  | some Val.null => none
  | some v => some v
  | none => none

/-- Modelled from the spec: `isNew` lives in the base attribute container
(`src/lib/base/model.js`, not under `src/`).  Per §6 of the spec the
container can "determine `is new` (no identity yet assigned)". -/
def Model.isNew (m : Model) : Bool := m.id.isNone

/-! ## `fetch` and eager loading -/

/-- Steps of the `fetch` promise chain that are visible to the outside:
the root `sync.first()` query, `_handleResponse` having merged the root row
(carrying the model state it produced), entry into the eager-load engine
(`_handleEager`, carrying the model state and the options handed over), and
the `fetched` event trigger. -/
inductive FetchEvent where
  | rootQuery
  | handled : Model → FetchEvent
  | eagerFetch : Model → Options → FetchEvent
  | fetchedHook
deriving DecidableEq, Repr

/-- The external world a `fetch` runs against: the rows `sync.first()`
returns for the root query (`[]` models both a missing and an empty
response), an oracle giving the rows each eager-loaded relation resolves
to, whether the eager engine itself fails, and whether a registered
`fetched` hook raises an error. -/
structure FetchWorld where
  response : List Row := []
  resolve : String → List Row := fun _ => []
  eagerErr : Option Err := none
  fetchedHookErr : Option Err := none

/-- Outcome of a `fetch`: `err = some e` means the returned promise rejects
with `e`; `result` is the resolved value (`some` model, or `none` for the
absent `null`/`undefined` result of an empty un-`require`d fetch); `model`
is the in-memory instance state after the chain settles; `events` the
ordered trace. -/
structure FetchOutcome where
  err : Option Err := none
  result : Option Model := none
  model : Model
  events : List FetchEvent
deriving DecidableEq, Repr

/-- `_handleResponse` (model.js:801): `set` the parsed first row onto the
model (the base container's `parse` is the identity by default) and, when
`relatedData` is present and joined, run `relatedData.parsePivot([this])`
(recorded by the `pivotParsed` flag). -/
def Model._handleResponse (m : Model) (response : List Row) : Model :=
  let m1 := { m with attributes := setAll m.attributes (response.headD []) }
  if m.relatedDataJoined = some true then { m1 with pivotParsed := true } else m1

/-- Modelled from the spec: `_handleEager` delegates to
`EagerRelation([this], response, this).fetch(options)` (src/lib/eager.js,
not under `src/`).  Per the spec (§3 "Result Graph", P5) for each requested
relation name the root's `relations` entry is "overwritten wholesale", its
value being the resolved related rows; the `resolve` oracle stands for the
relation queries the engine issues. -/
def Model._handleEager (resolve : String → List Row) (m : Model) (options : Options) : Model :=
  match options.withRelated with
  | none => m
  | some names =>
      { m with relations := names.foldl (fun rs n => assocSet rs n (resolve n)) m.relations }

/-- `fetch` (model.js:591-628): run the root query; on a missing/empty
response throw `NotFoundError` under `options.require`, else reject with
`null` — which the final `catch` turns back into a resolved `null` result.
On a non-empty response `_handleResponse` merges the row, then, when
`options.withRelated` is set, `_handleEager` runs with the `columns` option
omitted, then the `fetched` event fires and the model is returned. -/
def Model.fetch (m : Model) (options : Options) (w : FetchWorld) : FetchOutcome :=
  match w.response with
  | [] =>
      if truthy options.require then
        { err := some (Err.notFound "EmptyResponse"), model := m, events := [.rootQuery] }
      else
        { err := none, result := none, model := m, events := [.rootQuery] }
  | _ =>
      let m1 := m._handleResponse w.response
      match options.withRelated with
      | some _ =>
          let eagerOpts := { options with columns := none }
          match w.eagerErr with
          | some e =>
              { err := some e, model := m1,
                events := [.rootQuery, .handled m1, .eagerFetch m1 eagerOpts] }
          | none =>
              let m2 := m1._handleEager w.resolve eagerOpts
              match w.fetchedHookErr with
              | some e =>
                  { err := some e, model := m2,
                    events := [.rootQuery, .handled m1, .eagerFetch m1 eagerOpts, .fetchedHook] }
              | none =>
                  { err := none, result := some m2, model := m2,
                    events := [.rootQuery, .handled m1, .eagerFetch m1 eagerOpts, .fetchedHook] }
      | none =>
          match w.fetchedHookErr with
          | some e =>
              { err := some e, model := m1,
                events := [.rootQuery, .handled m1, .fetchedHook] }
          | none =>
              { err := none, result := some m1, model := m1,
                events := [.rootQuery, .handled m1, .fetchedHook] }

/-- The argument of `load`: a single relation name or an array of them
(`_.isArray(relations) ? relations : [relations]`). -/
inductive RelArg where
  | one : String → RelArg
  | many : List String → RelArg
deriving DecidableEq, Repr

/-- The options `load` (model.js:648-660) hands to the eager-load engine:
`_.extend({}, options, {shallow: true, withRelated: ...})` — the caller's
options with `shallow` forced to `true` and `withRelated` set to the given
array (a non-array argument is wrapped in a one-element array). -/
def loadOptions (options : Option Options) (relations : RelArg) : Options :=
  { options.getD {} with
    shallow := some true
    withRelated := some (match relations with
      | RelArg.one s => [s]
      | RelArg.many l => l) }

/-- `load` (model.js:648-660): builds a one-row response from the model's
own (formatted) attributes and runs `_handleEager` on it with
`loadOptions`; resolves to the model itself. -/
def Model.load (resolve : String → List Row) (m : Model) (relations : RelArg)
    (options : Option Options) : Model :=
  m._handleEager resolve (loadOptions options relations)

/-! ## `save` -/

/-- Modelled from the spec: `saveMethod` lives in the base attribute
container (`src/lib/base/model.js`, not under `src/`).  An explicit
`options.method` wins; otherwise `patch` forces an update and a new
instance (no identity yet assigned, spec §6) is inserted, an existing one
updated. -/
def Model.saveMethod (m : Model) (options : Options) : SaveMethod :=
  match options.method with
  | some mm => mm
  | none =>
      if truthy options.patch then SaveMethod.update
      else if m.isNew then SaveMethod.insert else SaveMethod.update

/-- Modelled from the spec: the base container's `timestamp` helper
(`src/lib/base/model.js`, not under `src/`).  Per the spec's save scenario
(§8) it "sets created/updated timestamp attributes": both `created_at` and
`updated_at` for an insert, `updated_at` for an update, to the current
time. -/
def timestampVals (method : SaveMethod) (now : Val) : List (String × Val) :=
  match method with
  | SaveMethod.insert => [("created_at", now), ("updated_at", now)]
  | SaveMethod.update => [("updated_at", now)]

/-- Steps of the `save` promise chain visible to the outside: the
timestamp attributes being set on the model, the pre-write
`creating saving` / `updating saving` hook trigger, the insert or update
statement with its payload, and the post-write `created saved` /
`updated saved` trigger. -/
inductive SaveEvent where
  | timestamps : List (String × Val) → SaveEvent
  | savingHook : String → SaveEvent
  | insertWrite : List (String × Val) → SaveEvent
  | updateWrite : List (String × Val) → SaveEvent
  | savedHook : String → SaveEvent
deriving DecidableEq, Repr

/-- The external world a `save` runs against: the current time for the
timestamp helper, whether the pre- and post-write hook triggers raise,
the id list an insert's write result carries (`resp`, with `resp[0]` the
database-assigned id) and the affected-row count an update reports. -/
structure SaveWorld where
  now : Val := Val.null
  savingHookErr : Option Err := none
  savedHookErr : Option Err := none
  insertIds : List Val := []
  updateCount : Nat := 0

/-- Outcome of a `save`: rejection error (if any), the in-memory model
state after the chain settles, and the ordered event trace. -/
structure SaveOutcome where
  err : Option Err := none
  model : Model
  events : List SaveEvent
deriving DecidableEq, Repr

/-- `save` (model.js:666-740), for the `{key: value}`-object calling
convention (`attrs0` is the attribute hash argument).  The chain: choose
insert/update via `saveMethod`; merge `defaults` under the current
attributes for an insert (or when `options.defaults`); `set` the
attributes silently; when `hasTimestamps`, set timestamp attributes on the
model and extend `attrs`; trigger the pre-write hooks — an error there
rejects before any write; issue the write (`attrs` for a patch update,
`this.attributes` otherwise); for an insert on an id-less model take the
id from `resp[0]`; for an update with zero affected rows throw
`NoRowsUpdatedError` unless `options.require` is exactly `false`; finally
trigger the post-write hooks.  `Helpers.saveConstraints` only applies to
models with `relatedData` (relation-constrained saves, not modelled
here). -/
def Model.save (m : Model) (attrs0 : List (String × Val)) (options : Options)
    (w : SaveWorld) : SaveOutcome :=
  let method := m.saveMethod options
  let attrs1 :=
    if method = SaveMethod.insert ∨ truthy options.defaults then
      match m.defaults with
      | some d => setAll (setAll d m.attributes) attrs0
      | none => attrs0
    else attrs0
  let m1 : Model := { m with attributes := setAll m.attributes attrs1 }
  let tvals := timestampVals method w.now
  let m2 : Model :=
    if m.hasTimestamps then { m1 with attributes := setAll m1.attributes tvals } else m1
  let attrs2 := if m.hasTimestamps then setAll attrs1 tvals else attrs1
  let hookNames := if method = SaveMethod.insert then "creating saving" else "updating saving"
  let preEvents :=
    (if m.hasTimestamps then [SaveEvent.timestamps tvals] else []) ++ [SaveEvent.savingHook hookNames]
  match w.savingHookErr with
  | some e => { err := some e, model := m2, events := preEvents }
  | none =>
      match method with
      | SaveMethod.insert =>
          let events1 := preEvents ++ [SaveEvent.insertWrite m2.attributes]
          let m3 : Model :=
            if m2.id.isNone then
              { m2 with attributes := assocSet m2.attributes m2.idAttribute (w.insertIds.headD Val.null) }
            else m2
          match w.savedHookErr with
          | some e => { err := some e, model := m3, events := events1 ++ [SaveEvent.savedHook "created saved"] }
          | none => { err := none, model := m3, events := events1 ++ [SaveEvent.savedHook "created saved"] }
      | SaveMethod.update =>
          let payload := if truthy options.patch then attrs2 else m2.attributes
          let events1 := preEvents ++ [SaveEvent.updateWrite payload]
          if w.updateCount = 0 ∧ options.require ≠ some false then
            { err := some (Err.noRowsUpdated "No Rows Updated"), model := m2, events := events1 }
          else
            match w.savedHookErr with
            | some e => { err := some e, model := m2, events := events1 ++ [SaveEvent.savedHook "updated saved"] }
            | none => { err := none, model := m2, events := events1 ++ [SaveEvent.savedHook "updated saved"] }

/-! ## `destroy` -/

/-- Steps of the `destroy` promise chain: the `destroying` hook trigger,
the delete statement, and the `destroyed` hook trigger. -/
inductive DestroyEvent where
  | destroyingHook
  | delWrite
  | destroyedHook
deriving DecidableEq, Repr

/-- The external world a `destroy` runs against: whether the `destroying`
and `destroyed` hook triggers raise, and the affected-row count
`sync.del()` reports. -/
structure DestroyWorld where
  destroyingHookErr : Option Err := none
  destroyedHookErr : Option Err := none
  delCount : Nat := 0

/-- Outcome of a `destroy`. -/
structure DestroyOutcome where
  err : Option Err := none
  model : Model
  events : List DestroyEvent
deriving DecidableEq, Repr

/-- `destroy` (model.js:746-761): trigger `destroying` — an error there
rejects before the delete is issued; run `sync.del()`; with a truthy
`options.require` and zero affected rows throw `NoRowsDeletedError`
(before `clear`, so the attributes stay); otherwise `clear()` the
attributes and trigger `destroyed`. -/
def Model.destroy (m : Model) (options : Options) (w : DestroyWorld) : DestroyOutcome :=
  match w.destroyingHookErr with
  | some e => { err := some e, model := m, events := [.destroyingHook] }
  | none =>
      if truthy options.require ∧ w.delCount = 0 then
        { err := some (Err.noRowsDeleted "No Rows Deleted"), model := m,
          events := [.destroyingHook, .delWrite] }
      else
        let m1 : Model := { m with attributes := [] }
        match w.destroyedHookErr with
        | some e => { err := some e, model := m1, events := [.destroyingHook, .delWrite, .destroyedHook] }
        | none => { err := none, model := m1, events := [.destroyingHook, .delWrite, .destroyedHook] }

/-! ## Polymorphic relation constructors -/

/-- A JavaScript argument as the morph helpers inspect it: absent
(`undefined`), `null`, a string, or an array of column names. -/
inductive JSArg where
  | undef
  | null
  | str : String → JSArg
  | arr : List String → JSArg
deriving DecidableEq, Repr

/-- `_.isString`. -/
def JSArg.isString : JSArg → Bool
  | .str _ => true
  | _ => false

/-- `_.isArray`. -/
def JSArg.isArray : JSArg → Bool
  | .arr _ => true
  | _ => false

/-- JavaScript truthiness of such an argument (the empty string, `null`
and `undefined` are falsy; any array is truthy). -/
def JSArg.jsTruthy : JSArg → Bool
  | .undef => false
  | .null => false
  | .str s => !s.isEmpty
  | .arr _ => true

/-- A tail argument of `morphTo` after the name: either the optional
column-name array or a candidate `Target` model constructor (identified by
name). -/
inductive MorphRest where
  | cols : List String → MorphRest
  | candidate : String → MorphRest
deriving DecidableEq, Repr

/-- The relation descriptor `_relation(type, Target, options)` builds and
hands to `.init(this)`; constructing it issues no query. -/
structure RelationData where
  rtype : String
  target : Option String := none
  morphName : JSArg := JSArg.undef
  morphValue : JSArg := JSArg.undef
  columnNames : Option (List String) := none
  candidates : List String := []
deriving DecidableEq, Repr

/-- `morphTo` (model.js:434-445): throws unless the first argument is a
string; an array in second position is taken as custom column names, and
the remaining arguments are the candidate target constructors.  Only then
is the `morphTo` relation descriptor built. -/
def Model.morphTo (_m : Model) (morphName : JSArg) (rest : List MorphRest) :
    Except Err RelationData :=
  match morphName with
  | JSArg.str s =>
      let (columnNames, remainder) :=
        match rest with
        | MorphRest.cols cols :: rs => (some cols, rs)
        | rs => ((none : Option (List String)), rs)
      Except.ok { rtype := "morphTo", target := none, morphName := JSArg.str s,
                  columnNames := columnNames,
                  candidates := remainder.filterMap (fun r =>
                    match r with
                    | MorphRest.candidate t => some t
                    | MorphRest.cols _ => none) }
  | _ => Except.error (Err.configError "The `morphTo` name must be specified.")

/-- `_morphOneOrMany` (model.js:788-796): a non-array `columnNames`
argument is shifted into `morphValue`; then a falsy `morphName` or a
missing `Target` throws before the relation descriptor is built. -/
def Model._morphOneOrMany (_m : Model) (target : Option String) (morphName : JSArg)
    (columnNames : JSArg) (morphValue : JSArg) (rtype : String) :
    Except Err RelationData :=
  let (columnNames, morphValue) :=
    if ¬ columnNames.isArray then (JSArg.null, columnNames) else (columnNames, morphValue)
  if ¬ morphName.jsTruthy ∨ target = none then
    Except.error (Err.configError "The polymorphic `name` and `Target` are required.")
  else
    Except.ok { rtype := rtype, target := target, morphName := morphName,
                morphValue := morphValue,
                columnNames := match columnNames with
                  | JSArg.arr l => some l
                  | _ => none }

/-- `morphOne` (model.js:344-346). -/
def Model.morphOne (m : Model) (target : Option String)
    (name columnNames morphValue : JSArg) : Except Err RelationData :=
  m._morphOneOrMany target name columnNames morphValue "morphOne"

/-- `morphMany` (model.js:396-398). -/
def Model.morphMany (m : Model) (target : Option String)
    (name columnNames morphValue : JSArg) : Except Err RelationData :=
  m._morphOneOrMany target name columnNames morphValue "morphMany"

/-! ## Association-list lemmas -/

theorem setAll_nil (dst : List (String × α)) : setAll dst [] = dst := rfl

theorem setAll_cons (dst : List (String × α)) (a : String) (x : α)
    (src : List (String × α)) :
    setAll dst ((a, x) :: src) = setAll (assocSet dst a x) src := rfl

theorem assocGet_assocSet_self (l : List (String × α)) (k : String) (v : α) :
    assocGet (assocSet l k v) k = some v := by
  induction l with
  | nil => simp [assocSet, assocGet]
  | cons hd tl ih =>
      obtain ⟨k', v'⟩ := hd
      by_cases h : k' = k
      · simp [assocSet, assocGet, h]
      · simp [assocSet, assocGet, h, ih]

theorem assocGet_assocSet_ne (l : List (String × α)) (k' k : String) (v : α)
    (h : k' ≠ k) : assocGet (assocSet l k' v) k = assocGet l k := by
  induction l with
  | nil => simp [assocSet, assocGet, h]
  | cons hd tl ih =>
      obtain ⟨a, x⟩ := hd
      by_cases ha : a = k'
      · simp [assocSet, assocGet, ha, h, ih]
      · simp only [assocSet, ha, if_false]
        by_cases hak : a = k
        · simp [assocGet, hak]
        · simp [assocGet, hak, ih]

theorem assocGet_setAll_of_none (src : List (String × α)) (l : List (String × α))
    (k : String) (h : assocGet src k = none) :
    assocGet (setAll l src) k = assocGet l k := by
  induction src generalizing l with
  | nil => simp [setAll]
  | cons hd tl ih =>
      obtain ⟨a, x⟩ := hd
      by_cases hak : a = k
      · simp [assocGet, hak] at h
      · simp only [assocGet, hak, if_false] at h
        rw [setAll_cons, ih _ h, assocGet_assocSet_ne _ _ _ _ hak]

theorem assocSet_assocSet_self (l : List (String × α)) (k : String) (v v' : α) :
    assocSet (assocSet l k v) k v' = assocSet l k v' := by
  induction l with
  | nil => simp [assocSet]
  | cons hd tl ih =>
      obtain ⟨a, x⟩ := hd
      by_cases ha : a = k
      · simp [assocSet, ha]
      · simp [assocSet, ha, ih]

theorem keyCount_assocSet_self (l : List (String × α)) (k : String) (v : α) :
    keyCount (assocSet l k v) k = max 1 (keyCount l k) := by
  induction l with
  | nil => simp [assocSet, keyCount]
  | cons hd tl ih =>
      obtain ⟨a, x⟩ := hd
      by_cases ha : a = k
      · simp [assocSet, keyCount, ha, List.filter]
      · simp only [assocSet, ha, if_false]
        simp only [keyCount, List.filter] at *
        simp [ha, ih]

/-! ## Claim theorems -/

/-- C1: for a `fetch` whose root query returns zero rows, a truthy
`require` rejects the promise with the model's `NotFoundError`; an unset
`require` resolves it with the absent result and no error; and in both
cases no attributes are set on the model. -/
theorem fetch_empty_response_spec (m : Model) (options : Options) (w : FetchWorld)
    (hresp : w.response = []) :
    (options.require = some true →
        (m.fetch options w).err = some (Err.notFound "EmptyResponse")) ∧
    (options.require = none →
        (m.fetch options w).err = none ∧ (m.fetch options w).result = none) ∧
    (m.fetch options w).model.attributes = m.attributes := by
  refine ⟨fun hreq => ?_, fun hreq => ?_, ?_⟩
  · simp [Model.fetch, hresp, truthy, hreq]
  · simp [Model.fetch, hresp, truthy, hreq]
  · cases hreq' : options.require with
    | none => simp [Model.fetch, hresp, truthy, hreq']
    | some b => cases b <;> simp [Model.fetch, hresp, truthy, hreq']

/-- C1 witness. -/
theorem fetch_empty_response_spec_witness :
    ((({} : Model).fetch { require := some true } {}).err
        = some (Err.notFound "EmptyResponse")) ∧
    ((({} : Model).fetch {} {}).err = none ∧ (({} : Model).fetch {} {}).result = none) ∧
    ((({} : Model).fetch {} {}).model.attributes = ({} : Model).attributes) :=
  ⟨(fetch_empty_response_spec {} { require := some true } {} rfl).1 rfl,
   (fetch_empty_response_spec {} {} {} rfl).2.1 rfl,
   (fetch_empty_response_spec {} {} {} rfl).2.2⟩

/-- C3: a `destroy` with truthy `require` whose delete affects zero rows
(and whose `destroying` hook does not itself abort) rejects with
`NoRowsDeletedError` and leaves the in-memory attributes unchanged —
`clear` is never reached on that path. -/
theorem destroy_require_no_rows_spec (m : Model) (options : Options) (w : DestroyWorld)
    (hreq : truthy options.require = true) (hdel : w.delCount = 0)
    (hhook : w.destroyingHookErr = none) :
    (m.destroy options w).err = some (Err.noRowsDeleted "No Rows Deleted") ∧
    (m.destroy options w).model.attributes = m.attributes := by
  simp [Model.destroy, hreq, hdel, hhook]

/-- C3 witness. -/
theorem destroy_require_no_rows_spec_witness :
    ((Model.destroy { attributes := [("id", Val.num 1)] } { require := some true }
        { delCount := 0 }).err = some (Err.noRowsDeleted "No Rows Deleted")) ∧
    ((Model.destroy { attributes := [("id", Val.num 1)] } { require := some true }
        { delCount := 0 }).model.attributes = [("id", Val.num 1)]) :=
  destroy_require_no_rows_spec { attributes := [("id", Val.num 1)] }
    { require := some true } { delCount := 0 } rfl rfl rfl

/-- C9: the options `load` hands to the eager-load engine always carry
`shallow = true` (overriding any caller-supplied value) and `withRelated`
equal to the given relation array — a single non-array name being wrapped
into a one-element array. -/
theorem load_passes_shallow_spec (resolve : String → List Row) (m : Model)
    (relations : RelArg) (options : Option Options) :
    Model.load resolve m relations options
        = m._handleEager resolve (loadOptions options relations) ∧
    (loadOptions options relations).shallow = some true ∧
    (loadOptions options relations).withRelated
        = some (match relations with
            | RelArg.one s => [s]
            | RelArg.many l => l) := by
  refine ⟨rfl, rfl, ?_⟩
  cases relations <;> rfl

/-- C2 counterexample: an update-path `save` with the `require` option NOT
supplied and zero rows affected still rejects with `NoRowsUpdatedError`
(the code's guard is `options.require !== false`, not "require was
supplied"), refuting "without `require`, an update affecting zero rows
resolves normally". -/
theorem save_update_require_claim_cex :
    (Model.save { attributes := [("id", Val.num 1)] } [("name", Val.str "x")] {}
        { updateCount := 0 }).err = some (Err.noRowsUpdated "No Rows Updated") ∧
    ({} : Options).require = none ∧
    Model.saveMethod { attributes := [("id", Val.num 1)] } {} = SaveMethod.update := by
  refine ⟨?_, rfl, rfl⟩
  rfl

/-- C2 amended: an update-path `save` (with non-aborting hooks) rejects
with `NoRowsUpdatedError` iff the write affected zero rows and `require`
is not explicitly `false`; with `require: false`, or with at least one row
affected, it resolves normally. -/
theorem save_update_require_spec (m : Model) (attrs0 : List (String × Val))
    (options : Options) (w : SaveWorld)
    (hmethod : m.saveMethod options = SaveMethod.update)
    (hpre : w.savingHookErr = none) (hpost : w.savedHookErr = none) :
    ((m.save attrs0 options w).err = some (Err.noRowsUpdated "No Rows Updated") ↔
        (w.updateCount = 0 ∧ options.require ≠ some false)) ∧
    ((w.updateCount ≠ 0 ∨ options.require = some false) →
        (m.save attrs0 options w).err = none) := by
  simp only [Model.save, hmethod, hpre, hpost]
  by_cases hc : w.updateCount = 0 ∧ options.require ≠ some false
  · simp [hc]
  · simp [hc]

/-- C2 witness (for the amended theorem): with `require: false` a zero-row
update resolves normally. -/
theorem save_update_require_spec_witness :
    (Model.save { attributes := [("id", Val.num 1)] } [] { require := some false }
        { updateCount := 0 }).err = none :=
  (save_update_require_spec { attributes := [("id", Val.num 1)] } []
      { require := some false } { updateCount := 0 } rfl rfl rfl).2 (Or.inr rfl)

/-- C5: a `saving`/`creating`/`updating` hook error rejects `save` with
that error and no insert or update is ever issued; a `destroying` hook
error rejects `destroy` with that error and no delete is ever issued. -/
theorem hook_error_aborts_write_spec :
    (∀ (m : Model) (attrs0 : List (String × Val)) (options : Options)
        (w : SaveWorld) (e : Err), w.savingHookErr = some e →
      (m.save attrs0 options w).err = some e ∧
      ∀ ev ∈ (m.save attrs0 options w).events,
        (∀ p, ev ≠ SaveEvent.insertWrite p) ∧ (∀ p, ev ≠ SaveEvent.updateWrite p)) ∧
    (∀ (m : Model) (options : Options) (w : DestroyWorld) (e : Err),
        w.destroyingHookErr = some e →
      (m.destroy options w).err = some e ∧
      DestroyEvent.delWrite ∉ (m.destroy options w).events) := by
  constructor
  · intro m attrs0 options w e hhook
    constructor
    · simp [Model.save, hhook]
    · intro ev hev
      simp only [Model.save, hhook] at hev
      by_cases hts : m.hasTimestamps
      · simp [hts] at hev
        rcases hev with h | h <;> simp [h]
      · simp [hts] at hev
        simp [hev]
  · intro m options w e hhook
    simp [Model.destroy, hhook]

/-- C5 witness. -/
theorem hook_error_aborts_write_spec_witness :
    ((Model.save {} [] {} { savingHookErr := some (Err.hookError "no") }).err
        = some (Err.hookError "no") ∧
      ∀ ev ∈ (Model.save {} [] {} { savingHookErr := some (Err.hookError "no") }).events,
        (∀ p, ev ≠ SaveEvent.insertWrite p) ∧ (∀ p, ev ≠ SaveEvent.updateWrite p)) ∧
    ((Model.destroy {} {} { destroyingHookErr := some (Err.hookError "no") }).err
        = some (Err.hookError "no") ∧
      DestroyEvent.delWrite
        ∉ (Model.destroy {} {} { destroyingHookErr := some (Err.hookError "no") }).events) :=
  ⟨hook_error_aborts_write_spec.1 {} [] {} { savingHookErr := some (Err.hookError "no") }
      (Err.hookError "no") rfl,
   hook_error_aborts_write_spec.2 {} {} { destroyingHookErr := some (Err.hookError "no") }
      (Err.hookError "no") rfl⟩

/-- C6: `load` assigns the `relations` entry for a relation name
wholesale: loading the same name twice leaves the model exactly as a
single `load` does, with exactly one entry for the name, whose value is
that of a single load (the resolved rows) — never an accumulation. -/
theorem load_overwrites_relations_spec (resolve : String → List Row) (m : Model)
    (name : String) (options : Option Options)
    (hdup : keyCount m.relations name ≤ 1) :
    Model.load resolve (Model.load resolve m (RelArg.one name) options)
        (RelArg.one name) options
      = Model.load resolve m (RelArg.one name) options ∧
    keyCount (Model.load resolve m (RelArg.one name) options).relations name = 1 ∧
    assocGet (Model.load resolve m (RelArg.one name) options).relations name
      = some (resolve name) := by
  simp only [Model.load, Model._handleEager, loadOptions, List.foldl]
  refine ⟨?_, ?_, ?_⟩
  · simp [assocSet_assocSet_self]
  · rw [keyCount_assocSet_self]
    omega
  · exact assocGet_assocSet_self _ _ _

/-- C6 witness. -/
theorem load_overwrites_relations_spec_witness :
    Model.load (fun _ => [[("id", Val.num 2)]])
        (Model.load (fun _ => [[("id", Val.num 2)]]) {} (RelArg.one "genre") none)
        (RelArg.one "genre") none
      = Model.load (fun _ => [[("id", Val.num 2)]]) {} (RelArg.one "genre") none ∧
    keyCount (Model.load (fun _ => [[("id", Val.num 2)]]) {}
        (RelArg.one "genre") none).relations "genre" = 1 ∧
    assocGet (Model.load (fun _ => [[("id", Val.num 2)]]) {}
        (RelArg.one "genre") none).relations "genre" = some [[("id", Val.num 2)]] :=
  load_overwrites_relations_spec (fun _ => [[("id", Val.num 2)]]) {} "genre" none
    (by simp [keyCount])

/-- C7: constructing a polymorphic relation with required identifying
information absent throws before any relation descriptor (and hence any
query) is built: `morphTo` without a string morph name errors, and
`morphOne`/`morphMany` without a morph name or without a `Target` type
error. -/
theorem morph_config_error_spec (m : Model) :
    (∀ (name : JSArg) (rest : List MorphRest), name.isString = false →
        m.morphTo name rest
          = Except.error (Err.configError "The `morphTo` name must be specified.")) ∧
    (∀ (target : Option String) (name columnNames morphValue : JSArg),
        name = JSArg.undef ∨ target = none →
        m.morphOne target name columnNames morphValue
          = Except.error (Err.configError "The polymorphic `name` and `Target` are required.")) ∧
    (∀ (target : Option String) (name columnNames morphValue : JSArg),
        name = JSArg.undef ∨ target = none →
        m.morphMany target name columnNames morphValue
          = Except.error (Err.configError "The polymorphic `name` and `Target` are required.")) := by
  refine ⟨?_, ?_, ?_⟩
  · intro name rest hname
    cases name <;> simp [JSArg.isString] at hname <;>
      simp [Model.morphTo]
  · intro target name columnNames morphValue h
    rcases h with h | h <;>
      subst h <;>
      simp [Model.morphOne, Model._morphOneOrMany, JSArg.jsTruthy]
  · intro target name columnNames morphValue h
    rcases h with h | h <;>
      subst h <;>
      simp [Model.morphMany, Model._morphOneOrMany, JSArg.jsTruthy]

/-- C7 witness. -/
theorem morph_config_error_spec_witness :
    ({} : Model).morphTo JSArg.undef []
        = Except.error (Err.configError "The `morphTo` name must be specified.") ∧
    ({} : Model).morphOne none (JSArg.str "imageable") JSArg.undef JSArg.undef
        = Except.error (Err.configError "The polymorphic `name` and `Target` are required.") ∧
    ({} : Model).morphMany (some "Photo") JSArg.undef JSArg.undef JSArg.undef
        = Except.error (Err.configError "The polymorphic `name` and `Target` are required.") :=
  ⟨(morph_config_error_spec {}).1 JSArg.undef [] rfl,
   (morph_config_error_spec {}).2.1 none (JSArg.str "imageable") JSArg.undef JSArg.undef
      (Or.inr rfl),
   (morph_config_error_spec {}).2.2 (some "Photo") JSArg.undef JSArg.undef JSArg.undef
      (Or.inl rfl)⟩

theorem handleResponse_attributes (m : Model) (response : List Row) :
    (m._handleResponse response).attributes = setAll m.attributes (response.headD []) := by
  unfold Model._handleResponse
  by_cases h : m.relatedDataJoined = some true <;> simp [h]

theorem handleResponse_pivotParsed (m : Model) (response : List Row)
    (h : m.relatedDataJoined = some true) :
    (m._handleResponse response).pivotParsed = true := by
  simp [Model._handleResponse, h]

/-- C10: when `fetch` hands options to the eager-load engine, they are the
caller's options with the `columns` restriction omitted and every other
option field passed through unchanged — a root column restriction never
reaches the relation queries. -/
theorem fetch_eager_omits_columns_spec (m : Model) (options : Options) (w : FetchWorld)
    (hresp : w.response ≠ []) (hwr : options.withRelated.isSome = true) :
    ∃ m1 o, FetchEvent.eagerFetch m1 o ∈ (m.fetch options w).events ∧
      o.columns = none ∧ o.require = options.require ∧
      o.withRelated = options.withRelated ∧ o.shallow = options.shallow ∧
      o.transacting = options.transacting ∧ o.method = options.method ∧
      o.patch = options.patch ∧ o.defaults = options.defaults := by
  rcases hr : w.response with _ | ⟨r, rs⟩
  · exact absurd hr hresp
  · rcases hw : options.withRelated with _ | ws
    · rw [hw] at hwr
      simp at hwr
    · refine ⟨m._handleResponse (r :: rs), { options with columns := none },
        ?_, ?_, ?_, ?_, ?_, ?_, ?_, ?_, ?_⟩
      · cases he : w.eagerErr <;> cases hf : w.fetchedHookErr <;>
          simp [Model.fetch, hr, hw, he, hf]
      all_goals simp [hw]

/-- C10 witness. -/
theorem fetch_eager_omits_columns_spec_witness :
    ∃ m1 o, FetchEvent.eagerFetch m1 o
        ∈ (({} : Model).fetch { columns := some ["title"], withRelated := some ["genre"] }
            { response := [[("id", Val.num 1)]] }).events ∧
      o.columns = none ∧
      o.require = ({ columns := some ["title"], withRelated := some ["genre"] } : Options).require ∧
      o.withRelated
        = ({ columns := some ["title"], withRelated := some ["genre"] } : Options).withRelated ∧
      o.shallow = ({ columns := some ["title"], withRelated := some ["genre"] } : Options).shallow ∧
      o.transacting
        = ({ columns := some ["title"], withRelated := some ["genre"] } : Options).transacting ∧
      o.method = ({ columns := some ["title"], withRelated := some ["genre"] } : Options).method ∧
      o.patch = ({ columns := some ["title"], withRelated := some ["genre"] } : Options).patch ∧
      o.defaults
        = ({ columns := some ["title"], withRelated := some ["genre"] } : Options).defaults :=
  fetch_eager_omits_columns_spec {} { columns := some ["title"], withRelated := some ["genre"] }
    { response := [[("id", Val.num 1)]] } (by simp) rfl

/-- C8: in every `fetch`, the eager-load engine is entered only after
`_handleResponse` merged the root row: an `eagerFetch` event exists only
for a non-empty root response, carries the merged model (attributes set
from the first row, pivot parsed when the relation is joined), and is
preceded in the trace by the corresponding `handled` event. -/
theorem fetch_root_before_eager_spec (m : Model) (options : Options) (w : FetchWorld)
    (i : Nat) (m1 : Model) (o : Options)
    (hev : (m.fetch options w).events.get? i = some (FetchEvent.eagerFetch m1 o)) :
    w.response ≠ [] ∧ m1 = m._handleResponse w.response ∧
    m1.attributes = setAll m.attributes (w.response.headD []) ∧
    (m.relatedDataJoined = some true → m1.pivotParsed = true) ∧
    ∃ j, j < i ∧ (m.fetch options w).events.get? j = some (FetchEvent.handled m1) := by
  rcases hr : w.response with _ | ⟨r, rs⟩
  · rcases i with _ | i <;> by_cases hreq : truthy options.require = true <;>
      simp [Model.fetch, hr, hreq, List.get?] at hev
  · rcases hw : options.withRelated with _ | ws
    · have hevents : (m.fetch options w).events
          = [FetchEvent.rootQuery, FetchEvent.handled (m._handleResponse (r :: rs)),
             FetchEvent.fetchedHook] := by
        cases hf : w.fetchedHookErr <;> simp [Model.fetch, hr, hw, hf]
      rw [hevents] at hev
      rcases i with _ | _ | _ | i <;> simp [List.get?] at hev
    · have hevents : ∃ tail, (m.fetch options w).events
          = [FetchEvent.rootQuery, FetchEvent.handled (m._handleResponse (r :: rs)),
             FetchEvent.eagerFetch (m._handleResponse (r :: rs))
               { options with columns := none }] ++ tail ∧
          ∀ ev ∈ tail, ev = FetchEvent.fetchedHook := by
        cases he : w.eagerErr <;> cases hf : w.fetchedHookErr <;>
          simp [Model.fetch, hr, hw, he, hf]
      obtain ⟨tail, hevents, htail⟩ := hevents
      rw [hevents] at hev
      rcases i with _ | _ | _ | i
      · simp [List.get?] at hev
      · simp [List.get?] at hev
      · simp [List.get?] at hev
        obtain ⟨hm1, ho⟩ := hev
        refine ⟨by simp, hm1.symm, ?_, ?_, 1, by omega, ?_⟩
        · rw [← hm1, handleResponse_attributes]
        · intro hj
          rw [← hm1]
          exact handleResponse_pivotParsed _ _ hj
        · rw [hevents]
          simp [List.get?, hm1]
      · simp only [List.cons_append, List.nil_append, List.get?] at hev
        have hmem : FetchEvent.eagerFetch m1 o ∈ tail := List.get?_mem hev
        have hcontra := htail _ hmem
        simp at hcontra

/-- C8 witness. -/
theorem fetch_root_before_eager_spec_witness :
    (({ response := [[("title", Val.str "X")]] } : FetchWorld).response ≠ []) ∧
    (Model._handleResponse {} [[("title", Val.str "X")]]
        = Model._handleResponse {} ({ response := [[("title", Val.str "X")]] } : FetchWorld).response) ∧
    ((Model._handleResponse {} [[("title", Val.str "X")]]).attributes
        = setAll ({} : Model).attributes
            (({ response := [[("title", Val.str "X")]] } : FetchWorld).response.headD [])) ∧
    (({} : Model).relatedDataJoined = some true →
        (Model._handleResponse {} [[("title", Val.str "X")]]).pivotParsed = true) ∧
    (∃ j, j < 2 ∧
        (({} : Model).fetch { withRelated := some ["genre"] }
            { response := [[("title", Val.str "X")]] }).events.get? j
          = some (FetchEvent.handled (Model._handleResponse {} [[("title", Val.str "X")]]))) :=
  fetch_root_before_eager_spec {} { withRelated := some ["genre"] }
    { response := [[("title", Val.str "X")]] } 2
    (Model._handleResponse {} [[("title", Val.str "X")]])
    { withRelated := some ["genre"] } rfl

/-- Shape of a `save` that takes the insert path with non-aborting hooks,
no `defaults` and timestamps enabled: timestamps are set, the pre-write
hooks fire, the insert is issued with the model's attributes (timestamps
included), and the id is taken from `resp[0]` when the model still has no
id. -/
theorem save_insert_shape (m : Model) (attrs0 : List (String × Val)) (options : Options)
    (w : SaveWorld) (hmethod : m.saveMethod options = SaveMethod.insert)
    (hpre : w.savingHookErr = none) (hpost : w.savedHookErr = none)
    (hdef : m.defaults = none) (hts : m.hasTimestamps = true) :
    m.save attrs0 options w =
      { err := none
        model :=
          if (Model.id { m with attributes := (setAll (setAll m.attributes attrs0)
              (timestampVals SaveMethod.insert w.now)) }).isNone then
            { m with attributes :=
                (assocSet (setAll (setAll m.attributes attrs0)
                    (timestampVals SaveMethod.insert w.now))
                  m.idAttribute (w.insertIds.headD Val.null)) }
          else
            { m with attributes := (setAll (setAll m.attributes attrs0)
                (timestampVals SaveMethod.insert w.now)) }
        events := [SaveEvent.timestamps (timestampVals SaveMethod.insert w.now),
                   SaveEvent.savingHook "creating saving",
                   SaveEvent.insertWrite (setAll (setAll m.attributes attrs0)
                      (timestampVals SaveMethod.insert w.now)),
                   SaveEvent.savedHook "created saved"] } := by
  simp [Model.save, hmethod, hpre, hpost, hdef, hts]

/-- C4: a `save` taking the insert path on a new instance (no id in the
attributes, none supplied) with `hasTimestamps`, whose hooks do not abort:
the timestamp attributes are set on the model strictly before the insert
statement is issued and appear in its payload; and after the insert the
promise resolves, the `idAttribute` attribute — and the model's id —
equal `resp[0]`, the first value of the write result. -/
theorem save_insert_timestamps_id_spec (m : Model) (attrs0 : List (String × Val))
    (options : Options) (w : SaveWorld) (v : Val) (ids : List Val)
    (hmethod : m.saveMethod options = SaveMethod.insert)
    (hnew : m.id = none)
    (hattrs : assocGet attrs0 m.idAttribute = none)
    (hdef : m.defaults = none) (hts : m.hasTimestamps = true)
    (hca : m.idAttribute ≠ "created_at") (hua : m.idAttribute ≠ "updated_at")
    (hpre : w.savingHookErr = none) (hpost : w.savedHookErr = none)
    (hids : w.insertIds = v :: ids) (hv : v ≠ Val.null) :
    (∃ i j payload, i < j ∧
        (m.save attrs0 options w).events.get? i
          = some (SaveEvent.timestamps (timestampVals SaveMethod.insert w.now)) ∧
        (m.save attrs0 options w).events.get? j
          = some (SaveEvent.insertWrite payload) ∧
        assocGet payload "created_at" = some w.now ∧
        assocGet payload "updated_at" = some w.now) ∧
    (m.save attrs0 options w).err = none ∧
    assocGet (m.save attrs0 options w).model.attributes m.idAttribute = some v ∧
    (m.save attrs0 options w).model.id = some v := by
  have hbase : assocGet (setAll (setAll m.attributes attrs0)
      (timestampVals SaveMethod.insert w.now)) m.idAttribute
      = assocGet m.attributes m.idAttribute := by
    show assocGet (setAll (setAll m.attributes attrs0)
        [("created_at", w.now), ("updated_at", w.now)]) m.idAttribute = _
    rw [setAll_cons, setAll_cons, setAll_nil,
      assocGet_assocSet_ne _ _ _ _ (Ne.symm hua), assocGet_assocSet_ne _ _ _ _ (Ne.symm hca)]
    exact assocGet_setAll_of_none attrs0 _ _ hattrs
  have hid2 : Model.id { m with attributes := (setAll (setAll m.attributes attrs0)
      (timestampVals SaveMethod.insert w.now)) } = none := by
    unfold Model.id at hnew ⊢
    simpa [hbase] using hnew
  rw [save_insert_shape m attrs0 options w hmethod hpre hpost hdef hts]
  simp only [hid2, Option.isNone_none, if_true]
  refine ⟨⟨0, 2, setAll (setAll m.attributes attrs0) (timestampVals SaveMethod.insert w.now),
      by omega, by simp [List.get?], by simp [List.get?], ?_, ?_⟩, trivial, ?_, ?_⟩
  · show assocGet (setAll (setAll m.attributes attrs0)
        [("created_at", w.now), ("updated_at", w.now)]) "created_at" = some w.now
    rw [setAll_cons, setAll_cons, setAll_nil,
      assocGet_assocSet_ne _ _ _ _ (by decide), assocGet_assocSet_self]
  · show assocGet (setAll (setAll m.attributes attrs0)
        [("created_at", w.now), ("updated_at", w.now)]) "updated_at" = some w.now
    rw [setAll_cons, setAll_cons, setAll_nil, assocGet_assocSet_self]
  · simp [hids, assocGet_assocSet_self]
  · show Model.id _ = some v
    unfold Model.id
    simp only [hids]
    rw [assocGet_assocSet_self]
    cases v <;> simp_all

/-- C4 witness. -/
theorem save_insert_timestamps_id_spec_witness :
    (∃ i j payload, i < j ∧
        (Model.save { hasTimestamps := true } [("title", Val.str "X")] {}
            { now := Val.num 99, insertIds := [Val.num 7] }).events.get? i
          = some (SaveEvent.timestamps (timestampVals SaveMethod.insert (Val.num 99))) ∧
        (Model.save { hasTimestamps := true } [("title", Val.str "X")] {}
            { now := Val.num 99, insertIds := [Val.num 7] }).events.get? j
          = some (SaveEvent.insertWrite payload) ∧
        assocGet payload "created_at" = some (Val.num 99) ∧
        assocGet payload "updated_at" = some (Val.num 99)) ∧
    (Model.save { hasTimestamps := true } [("title", Val.str "X")] {}
        { now := Val.num 99, insertIds := [Val.num 7] }).err = none ∧
    assocGet (Model.save { hasTimestamps := true } [("title", Val.str "X")] {}
        { now := Val.num 99, insertIds := [Val.num 7] }).model.attributes "id"
      = some (Val.num 7) ∧
    (Model.save { hasTimestamps := true } [("title", Val.str "X")] {}
        { now := Val.num 99, insertIds := [Val.num 7] }).model.id = some (Val.num 7) :=
  save_insert_timestamps_id_spec { hasTimestamps := true } [("title", Val.str "X")] {}
    { now := Val.num 99, insertIds := [Val.num 7] } (Val.num 7) []
    rfl rfl (by decide) rfl rfl (by decide) (by decide) rfl rfl rfl (by decide)

end Bookshelf
